import Mathlib

/-!
# maketx: the texture-baking pipeline of `src/maketx/maketx.cpp`

A shallow embedding of `make_texturemap` and `write_mipmap`.

* C++ `int` fields of `ImageSpec` are `Int`; `/` on `int` is `Int.tdiv`.
* The process-wide option variables are gathered in `Config`.
* The external collaborators (filesystem queries, the image reader, the
  `ImageOutput` plugin, the clock) are an explicit `FileSystem` state and an
  `Env` record of answers; the calls made on the writer are recorded in a trace.
* `exit (EXIT_FAILURE)` is the outcome `Outcome.fatal`.
* Pixel data is not modelled, only the specs that drive the loops.
-/

namespace Maketx

/-! ## Data model -/

/-- The pixel storage types named by `make_texturemap`; every other `TypeDesc`
value a source image may carry is `OTHER code`. -/
inductive TypeDesc where
  | UINT8
  | INT8
  | UINT16
  | INT16
  | HALF
  | FLOAT
  | DOUBLE
  | OTHER (code : Nat)
  deriving DecidableEq, Repr

/-- The matrix type `Imath::M44f`, as its sixteen entries in row order. -/
abbrev M44f := List Rat

/-- The zero matrix `Imath::M44f(0.0f)`. -/
def M44f.zero : M44f := List.replicate 16 0

/-- The typed values `make_texturemap` stores as attributes.  `ratio w h` is
the quotient `(float)w / h`, kept unevaluated. -/
inductive AttrValue where
  | str (s : String)
  | matrix (m : M44f)
  | ratio (num den : Int)
  deriving DecidableEq, Repr

/-- The fields of `ImageSpec` that `maketx.cpp` reads or writes. -/
structure ImageSpec where
  x : Int := 0
  y : Int := 0
  z : Int := 0
  width : Int := 0
  height : Int := 0
  depth : Int := 1
  full_width : Int := 0
  full_height : Int := 0
  full_depth : Int := 0
  tile_width : Int := 0
  tile_height : Int := 0
  tile_depth : Int := 0
  nchannels : Int := 0
  format : TypeDesc := TypeDesc.UINT8
  extra_attribs : List (String × AttrValue) := []
  deriving DecidableEq, Repr

/-- Modelled from the spec: `ImageSpec::attribute` is declared in `imageio.h`,
which is not among the sources.  The spec describes the attributes as "an
open-ended mapping of metadata attribute name → typed value", so setting a name
drops whatever was stored under it and stores the new value. -/
def ImageSpec.attribute (s : ImageSpec) (name : String) (v : AttrValue) : ImageSpec :=
  { s with extra_attribs := s.extra_attribs.filter (fun p => p.1 != name) ++ [(name, v)] }

/-- Modelled from the spec: lookup in the attribute mapping of an `ImageSpec`
(`imageio.h` is not among the sources). -/
def ImageSpec.find_attribute (s : ImageSpec) (name : String) : Option AttrValue :=
  (s.extra_attribs.find? (fun p => p.1 == name)).map (fun p => p.2)

/-- Modelled from the spec: `ImageSpec::set_format` (`imageio.h`) sets the
pixel storage type of the spec and nothing else that is modelled here. -/
def ImageSpec.set_format (s : ImageSpec) (t : TypeDesc) : ImageSpec :=
  { s with format := t }

/-- Doubling loop behind `pow2roundup`: `p` is doubled until it reaches `x`. -/
def pow2roundup_from : Nat → Int → Int → Int
  | 0, p, _ => p
  | fuel + 1, p, x => if x ≤ p then p else pow2roundup_from fuel (2 * p) x

/-- Modelled from the spec: `pow2roundup` is declared in `fmath.h`, which is not
among the sources.  The spec says it rounds "up to the next power of two (values
already a power of two are unchanged; 1 maps to 1)"; this is the doubling loop
from 1, over unbounded integers. -/
def pow2roundup (x : Int) : Int :=
  pow2roundup_from x.toNat 1 x

/-- The option variables of `maketx.cpp` (lines 51-82) that `make_texturemap`
and `write_mipmap` read, with their initial values.  `tile[2]` has no command
line option and is the constant `tile2`. -/
structure Config where
  full_command_line : String := ""
  filenames : List String := []
  outputfilename : String := ""
  dataformatname : String := ""
  fileformatname : String := ""
  verbose : Bool := false
  tile0 : Int := 64
  tile1 : Int := 64
  updatemode : Bool := false
  shadowmode : Bool := false
  wrap : String := "black"
  swrap : String := ""
  twrap : String := ""
  noresize : Bool := false
  Mcam : M44f := M44f.zero
  Mscr : M44f := M44f.zero
  nomipmap : Bool := false

/-- The entry `tile[2]`, initialised to 1 and never assigned. -/
def tile2 : Int := 1

/-- Modification time per path; `none` when the path does not exist. -/
abbrev FileSystem := String → Option Int

/-- Existence test `boost::filesystem::exists`. -/
def fs_exists (fs : FileSystem) (p : String) : Bool := (fs p).isSome

/-- The query `boost::filesystem::last_write_time (p)`, only called on existing paths. -/
def last_write_time (fs : FileSystem) (p : String) : Int := (fs p).getD 0

/-- The update `boost::filesystem::last_write_time (p, t)`. -/
def set_last_write_time (fs : FileSystem) (p : String) (t : Int) : FileSystem :=
  fun q => if q = p then some t else fs q

/-- What an `ImageOutput` plugin answers to `supports`. -/
structure Caps where
  tiles : Bool
  multiimage : Bool
  deriving DecidableEq, Repr

/-- Answers of the external collaborators during one run. -/
structure Env where
  /-- the function `boost::filesystem::extension` -/
  extension : String → String
  /-- the call `ImageBuf::read`: the spec of the decoded image, `none` on failure -/
  read : String → Option ImageSpec
  /-- the call `time (&date)` -/
  now : Int
  /-- the function `datestring`, which formats through `localtime_r` -/
  datestring : Int → String
  /-- the call `ImageOutput::create` -/
  create : String → Option Caps
  /-- result of the k-th call of `out->open` -/
  open_ok : Nat → Bool
  /-- result of the k-th call of `out->write_image` -/
  write_ok : Nat → Bool
  /-- result of `out->close` -/
  close_ok : Bool
  /-- modification time the output file gets when the writer opens it -/
  write_time : Int

/-- Calls made on the `ImageOutput` plugin. -/
inductive Event where
  | create (outformat : String)
  | open (name : String) (spec : ImageSpec) (append : Bool)
  | write_image (width height : Int)
  | close
  deriving DecidableEq, Repr

/-- The places where `maketx.cpp` calls `exit (EXIT_FAILURE)`. -/
inductive Fatal where
  | not_one_input
  | input_missing
  | read_failed
  | shadow_channels
  | no_plugin
  | no_tiles
  | no_multiimage
  | open_failed
  | append_failed
  | write_failed
  deriving DecidableEq, Repr

/-- How a run of `make_texturemap` ends. -/
inductive Outcome where
  | done
  | skipped
  | fatal (e : Fatal)
  deriving DecidableEq, Repr

/-- End of a run: outcome, filesystem and the writer calls made. -/
structure Result where
  outcome : Outcome
  fs : FileSystem
  trace : List Event

/-! ## `make_texturemap`, lines 241-341: output format and destination spec -/

/-- Lines 241-273: the data format wanted for the output. -/
def out_dataformat (cfg : Config) (src : ImageSpec) : TypeDesc :=
  let t0 := src.format
  let t1 :=
    if ! cfg.dataformatname.isEmpty then
      if cfg.dataformatname = "uint8" then TypeDesc.UINT8
      else if cfg.dataformatname = "int8" || cfg.dataformatname = "sint8" then TypeDesc.INT8
      else if cfg.dataformatname = "uint16" then TypeDesc.UINT16
      else if cfg.dataformatname = "int16" || cfg.dataformatname = "sint16" then TypeDesc.INT16
      else if cfg.dataformatname = "half" then TypeDesc.HALF
      else if cfg.dataformatname = "float" then TypeDesc.FLOAT
      else if cfg.dataformatname = "double" then TypeDesc.DOUBLE
      else t0
    else t0
  if cfg.shadowmode then
    if t1 ≠ TypeDesc.FLOAT ∧ t1 ≠ TypeDesc.HALF ∧ t1 ≠ TypeDesc.DOUBLE then TypeDesc.FLOAT
    else t1
  else t1

/-- Lines 318-321: the string stored under `wrapmodes`. -/
def wrapmodes (cfg : Config) : String :=
  (if cfg.swrap.length != 0 then cfg.swrap else cfg.wrap) ++ "," ++
    (if cfg.twrap.length != 0 then cfg.twrap else cfg.wrap)

/-- Lines 275-341: the destination spec, from the source spec `src`, the
options and the input's modification time `in_time`. -/
def build_dstspec (cfg : Config) (env : Env) (in_time : Int) (src : ImageSpec) : ImageSpec :=
  let d0 : ImageSpec := src
  let d1 := { d0 with x := 0, y := 0, z := 0, full_width := 0, full_height := 0, full_depth := 0 }
  let d2 := { d1 with tile_width := cfg.tile0, tile_height := cfg.tile1, tile_depth := tile2 }
  let d3 := d2.attribute "compression" (AttrValue.str "zip")
  let date := if cfg.updatemode then in_time else env.now
  let d4 := d3.attribute "DateTime" (AttrValue.str (env.datestring date))
  let d5 := d4.attribute "Software" (AttrValue.str cfg.full_command_line)
  let d6 :=
    if cfg.shadowmode then d5.attribute "textureformat" (AttrValue.str "Shadow")
    else d5.attribute "textureformat" (AttrValue.str "Plain Texture")
  let d7 := if cfg.Mcam ≠ M44f.zero then d6.attribute "worldtocamera" (AttrValue.matrix cfg.Mcam) else d6
  let d8 := if cfg.Mscr ≠ M44f.zero then d7.attribute "worldtoscreen" (AttrValue.matrix cfg.Mscr) else d7
  let d9 := if ! cfg.shadowmode then d8.attribute "wrapmodes" (AttrValue.str (wrapmodes cfg)) else d8
  let d10 := d9.attribute "fovcot" (AttrValue.ratio src.width src.height)
  let d11 := d10.set_format TypeDesc.FLOAT
  if ! cfg.noresize && ! cfg.shadowmode then
    let w := pow2roundup d11.width
    let h := pow2roundup d11.height
    { d11 with width := w, height := h, full_width := w, full_height := h }
  else d11

/-! ## `write_mipmap`, lines 364-451 -/

/-- Lines 412-419: the spec of the next, smaller level. -/
def smallspec (img : ImageSpec) : ImageSpec :=
  let s0 := img
  let s1 := if s0.width > 1 then { s0 with width := Int.tdiv s0.width 2 } else s0
  let s2 := if s1.height > 1 then { s1 with height := Int.tdiv s1.height 2 } else s1
  { s2 with full_width := s2.width, full_height := s2.height, full_depth := s2.depth }

/-- Variables of `write_mipmap` that change while it runs: the spec of `img`,
`outspec`, `ok`, the filesystem, the calls made so far, and how many `open`
and `write_image` calls were made. -/
structure LoopState where
  img : ImageSpec
  outspec : ImageSpec
  ok : Bool
  fs : FileSystem
  trace : List Event
  nopen : Nat
  nwrite : Nat

/-- How the level loop is left: by `exit`, or through its condition. -/
inductive LoopEnd where
  | exited (r : Result)
  | finished (st : LoopState)

/-- Lines 404-436: the `while` loop over the levels.  Every iteration uses one
unit of `fuel`; `none` means the fuel ran out before the loop was left. -/
def mip_loop (env : Env) (outputfilename : String) (outputdatatype : TypeDesc) :
    Nat → LoopState → Option LoopEnd
  | 0, st =>
    if st.ok && (decide (st.outspec.width > 1) || decide (st.outspec.height > 1)) then none
    else some (LoopEnd.finished st)
  | fuel + 1, st =>
    if st.ok && (decide (st.outspec.width > 1) || decide (st.outspec.height > 1)) then
      let small := smallspec st.img
      let outspec := small.set_format outputdatatype
      let trace := st.trace ++ [Event.open outputfilename outspec true]
      if ! env.open_ok st.nopen then
        some (LoopEnd.exited ⟨Outcome.fatal Fatal.append_failed, st.fs, trace⟩)
      else
        let fs := set_last_write_time st.fs outputfilename env.write_time
        let ok := st.ok && env.write_ok st.nwrite
        mip_loop env outputfilename outputdatatype fuel
          { img := small, outspec := outspec, ok := ok, fs := fs,
            trace := trace ++ [Event.write_image small.width small.height],
            nopen := st.nopen + 1, nwrite := st.nwrite + 1 }
    else some (LoopEnd.finished st)

/-- Lines 364-451.  The argument `img` is the spec of the image buffer. -/
def write_mipmap (fuel : Nat) (env : Env) (fs : FileSystem) (img : ImageSpec)
    (outputfilename outformat : String) (outputdatatype : TypeDesc) (mipmap : Bool) :
    Option Result :=
  let outspec := img.set_format outputdatatype
  let t1 := [Event.create outformat]
  match env.create outformat with
  | none => some ⟨Outcome.fatal Fatal.no_plugin, fs, t1⟩
  | some caps =>
    if ! caps.tiles then some ⟨Outcome.fatal Fatal.no_tiles, fs, t1⟩
    else if mipmap && ! caps.multiimage then some ⟨Outcome.fatal Fatal.no_multiimage, fs, t1⟩
    else
      let t2 := t1 ++ [Event.open outputfilename outspec false]
      if ! env.open_ok 0 then some ⟨Outcome.fatal Fatal.open_failed, fs, t2⟩
      else
        let fs1 := set_last_write_time fs outputfilename env.write_time
        let st0 : LoopState :=
          { img := img, outspec := outspec, ok := env.write_ok 0, fs := fs1,
            trace := t2 ++ [Event.write_image img.width img.height], nopen := 1, nwrite := 1 }
        let looped :=
          if mipmap then mip_loop env outputfilename outputdatatype fuel st0
          else some (LoopEnd.finished st0)
        match looped with
        | none => none
        | some (LoopEnd.exited r) => some r
        | some (LoopEnd.finished st) =>
          let ok := if st.ok then st.ok && env.close_ok else st.ok
          let trace := if st.ok then st.trace ++ [Event.close] else st.trace
          if ! ok then some ⟨Outcome.fatal Fatal.write_failed, st.fs, trace⟩
          else some ⟨Outcome.done, st.fs, trace⟩

/-! ## `make_texturemap`, lines 198-360 -/

/-- Lines 211-217: the output name, derived from the input name when no `-o`
was given. -/
def resolve_outputfilename (cfg : Config) (env : Env) (input : String) : String :=
  if cfg.outputfilename.isEmpty then
    let ext := env.extension input
    let notextlen : Int := (input.length : Int) - (ext.length : Int)
    String.mk (input.data.take notextlen.toNat) ++ ".tx"
  else cfg.outputfilename

/-- The two decisions of the freshness gate. -/
inductive Decision where
  | Proceed
  | Skip
  deriving DecidableEq, Repr

/-- Lines 219-229: skip when in update mode the output exists and has the
modification time of the input. -/
def freshness_gate (updatemode : Bool) (fs : FileSystem) (input output : String) : Decision :=
  let in_time := last_write_time fs input
  if updatemode && fs_exists fs output && decide (in_time = last_write_time fs output) then
    Decision.Skip
  else Decision.Proceed

/-- Lines 198-360, one run on the filesystem `fs`.  The result is `none` only
when the level loop of `write_mipmap` runs out of `fuel`. -/
def make_texturemap (fuel : Nat) (cfg : Config) (env : Env) (fs : FileSystem) : Option Result :=
  match cfg.filenames with
  | [input] =>
    if ! fs_exists fs input then some ⟨Outcome.fatal Fatal.input_missing, fs, []⟩
    else
      let outputfilename := resolve_outputfilename cfg env input
      let in_time := last_write_time fs input
      match freshness_gate cfg.updatemode fs input outputfilename with
      | Decision.Skip => some ⟨Outcome.skipped, fs, []⟩
      | Decision.Proceed =>
        match env.read input with
        | none => some ⟨Outcome.fatal Fatal.read_failed, fs, []⟩
        | some src =>
          if cfg.shadowmode && decide (src.nchannels ≠ 1) then
            some ⟨Outcome.fatal Fatal.shadow_channels, fs, []⟩
          else
            let dstspec := build_dstspec cfg env in_time src
            let outformat :=
              if cfg.fileformatname.isEmpty then outputfilename else cfg.fileformatname
            match write_mipmap fuel env fs dstspec outputfilename outformat
                (out_dataformat cfg src) (! cfg.shadowmode && ! cfg.nomipmap) with
            | none => none
            | some r =>
              match r.outcome with
              | Outcome.done =>
                if cfg.updatemode then
                  some { r with fs := set_last_write_time r.fs outputfilename in_time }
                else some r
              | _ => some r
  | _ => some ⟨Outcome.fatal Fatal.not_one_input, fs, []⟩

/-! ## Specification vocabulary -/

/-- The integer `r` is the smallest power of two that is at least `d`. -/
def IsSmallestPow2Ge (d r : Int) : Prop :=
  (∃ k : Nat, r = 2 ^ k) ∧ d ≤ r ∧ ∀ k : Nat, d ≤ 2 ^ k → r ≤ 2 ^ k

/-- The dimensions of the levels written: one pair per `write_image` call. -/
def levels (trace : List Event) : List (Int × Int) :=
  trace.filterMap (fun e =>
    match e with
    | Event.write_image w h => some (w, h)
    | _ => none)

/-- Level `b` has the halved dimensions of level `a`: floor of half, at least 1. -/
def HalvesTo (a b : Int × Int) : Prop :=
  b.1 = max 1 (a.1 / 2) ∧ b.2 = max 1 (a.2 / 2)

/-- Level `b` is strictly smaller than level `a`: no dimension grows and at
least one shrinks. -/
def StrictlySmaller (a b : Int × Int) : Prop :=
  b.1 ≤ a.1 ∧ b.2 ≤ a.2 ∧ (b.1 < a.1 ∨ b.2 < a.2)

/-- Every call on the writer succeeds, for the format `outformat`. -/
def WriterSucceeds (env : Env) (outformat : String) : Prop :=
  (∃ caps, env.create outformat = some caps ∧ caps.tiles = true ∧ caps.multiimage = true) ∧
  (∀ k, env.open_ok k = true) ∧ (∀ k, env.write_ok k = true) ∧ env.close_ok = true

/-- Filesystem in which the level loop ended. -/
def LoopEnd.fs : LoopEnd → FileSystem
  | LoopEnd.exited r => r.fs
  | LoopEnd.finished st => st.fs

/-- Writer calls made when the level loop ended. -/
def LoopEnd.trace : LoopEnd → List Event
  | LoopEnd.exited r => r.trace
  | LoopEnd.finished st => st.trace

/-- The fixed name table of the `-d` option, as the specification lists it. -/
def dataformat_table : List (String × TypeDesc) :=
  [("uint8", TypeDesc.UINT8), ("sint8", TypeDesc.INT8), ("int8", TypeDesc.INT8),
   ("uint16", TypeDesc.UINT16), ("sint16", TypeDesc.INT16), ("int16", TypeDesc.INT16),
   ("half", TypeDesc.HALF), ("float", TypeDesc.FLOAT), ("double", TypeDesc.DOUBLE)]

/-- The storage type in the words of the specification: the table entry of the
name, the source's type when the name has no entry; under shadow mode that type
when it is float, half or double, and float otherwise. -/
def storage_type_spec (src_format : TypeDesc) (name : String) (shadow : Bool) : TypeDesc :=
  let resolved := (dataformat_table.lookup name).getD src_format
  if shadow then
    if resolved = TypeDesc.FLOAT ∨ resolved = TypeDesc.HALF ∨ resolved = TypeDesc.DOUBLE then
      resolved
    else TypeDesc.FLOAT
  else resolved

/-! ## Concrete inputs used in the examples -/

/-- A writer and reader that always succeed; the input decodes to a 5 x 3
image of three channels. -/
def demo_env : Env :=
  { extension := fun _ => ".tif",
    read := fun _ => some { width := 5, height := 3, nchannels := 3 },
    now := 100,
    datestring := fun _ => "2008:01:01 00:00:00",
    create := fun _ => some ⟨true, true⟩,
    open_ok := fun _ => true,
    write_ok := fun _ => true,
    close_ok := true,
    write_time := 77 }

/-- A filesystem holding only the input `a.tif`, last modified at time 5. -/
def demo_fs : FileSystem := fun p => if p = "a.tif" then some 5 else none

/-- A filesystem holding the input `a.tif` and an output `a.tx` of the same
modification time. -/
def fresh_fs : FileSystem :=
  fun p => if p = "a.tif" then some 5 else if p = "a.tx" then some 5 else none

/-- Options `-u --shadow a.tif`. -/
def shadow_update_cfg : Config :=
  { filenames := ["a.tif"], updatemode := true, shadowmode := true }

/-- Options `-u a.tif`. -/
def update_cfg : Config := { filenames := ["a.tif"], updatemode := true }

/-- Options `-d half a.tif`. -/
def half_cfg : Config := { filenames := ["a.tif"], dataformatname := "half" }

/-- A one-channel 4 x 4 source that already carries a `wrapmodes` attribute,
as a texture written by an earlier run does. -/
def wrapped_src : ImageSpec :=
  { width := 4, height := 4, nchannels := 1,
    extra_attribs := [("wrapmodes", AttrValue.str "periodic,periodic")] }

/-- A 300 x 200 source of three channels. -/
def photo_src : ImageSpec := { width := 300, height := 200, nchannels := 3 }

/-! ## Sample coordinates of the resampling loops -/

/-- The normalized coordinate `(x + 0.5) / extent` of lines 346-347 and
423-424, as an exact rational. -/
def ndc (x extent : Int) : Rat := ((x : Rat) + 1 / 2) / (extent : Rat)

/-- The values of `i` in `for (int i = 0; i < n; ++i)`. -/
def index_range (n : Int) : List Int := (List.range n.toNat).map (fun (i : Nat) => (i : Int))

/-- Lines 344-350: the coordinates passed to `src.interppixel_NDC` for the base
level, row by row. -/
def base_sample_coords (dstspec : ImageSpec) : List (Rat × Rat) :=
  (index_range dstspec.height).flatMap (fun y =>
    (index_range dstspec.width).map (fun x => (ndc x dstspec.width, ndc y dstspec.height)))

/-- Lines 412-427: the coordinates passed to `tmp.interppixel_NDC` in one
iteration of the level loop entered with the image spec `img` and with
`outspec`, which is still the spec of the previous level while the pixels are
sampled. -/
def mip_sample_coords (img outspec : ImageSpec) : List (Rat × Rat) :=
  let small := smallspec img
  (index_range small.height).flatMap (fun y =>
    (index_range small.width).map (fun x => (ndc x outspec.width, ndc y outspec.height)))

/-! ## Lemmas on `pow2roundup` and the destination spec -/

theorem two_pow_le_of_lt (j k : Nat) (x : Int) (hlow : j = 0 ∨ (2 : Int) ^ (j - 1) < x)
    (hk : x ≤ 2 ^ k) : (2 : Int) ^ j ≤ 2 ^ k := by
  apply pow_le_pow_right₀ (by norm_num)
  rcases hlow with h0 | hlt
  · omega
  · have h : (2 : Int) ^ (j - 1) < 2 ^ k := lt_of_lt_of_le hlt hk
    have h2 : j - 1 < k := (pow_lt_pow_iff_right₀ (by norm_num)).1 h
    omega

theorem pow2roundup_from_spec (fuel : Nat) : ∀ (j : Nat) (x : Int),
    x ≤ 2 ^ (j + fuel) → (j = 0 ∨ (2 : Int) ^ (j - 1) < x) →
    IsSmallestPow2Ge x (pow2roundup_from fuel (2 ^ j) x) := by
  induction fuel with
  | zero =>
    intro j x hx hlow
    exact ⟨⟨j, rfl⟩, by simpa [pow2roundup_from] using hx,
      fun k hk => two_pow_le_of_lt j k x hlow hk⟩
  | succ n ih =>
    intro j x hx hlow
    unfold pow2roundup_from
    split
    · next hle => exact ⟨⟨j, rfl⟩, hle, fun k hk => two_pow_le_of_lt j k x hlow hk⟩
    · next hnle =>
      have h2 : (2 : Int) * 2 ^ j = 2 ^ (j + 1) := by ring
      rw [h2]
      apply ih (j + 1) x
      · have : j + 1 + n = j + (n + 1) := by omega
        rw [this]; exact hx
      · right
        simpa using hnle

theorem pow2roundup_spec (x : Int) : IsSmallestPow2Ge x (pow2roundup x) := by
  have h := pow2roundup_from_spec x.toNat 0 x
  simp only [pow_zero, Nat.zero_add] at h
  apply h
  · have h1 : x ≤ (x.toNat : Int) := Int.self_le_toNat x
    have h2 : x.toNat < 2 ^ x.toNat := Nat.lt_two_pow x.toNat
    have h3 : ((x.toNat : Nat) : Int) < ((2 ^ x.toNat : Nat) : Int) := by exact_mod_cast h2
    push_cast at h3
    omega
  · left; trivial

theorem build_dstspec_width (cfg : Config) (env : Env) (t : Int) (src : ImageSpec) :
    (build_dstspec cfg env t src).width =
      if cfg.noresize = false ∧ cfg.shadowmode = false then pow2roundup src.width
      else src.width := by
  unfold build_dstspec
  cases hn : cfg.noresize <;> cases hs : cfg.shadowmode <;>
    simp [ImageSpec.attribute, ImageSpec.set_format] <;>
    split <;> split <;> rfl

theorem build_dstspec_height (cfg : Config) (env : Env) (t : Int) (src : ImageSpec) :
    (build_dstspec cfg env t src).height =
      if cfg.noresize = false ∧ cfg.shadowmode = false then pow2roundup src.height
      else src.height := by
  unfold build_dstspec
  cases hn : cfg.noresize <;> cases hs : cfg.shadowmode <;>
    simp [ImageSpec.attribute, ImageSpec.set_format] <;>
    split <;> split <;> rfl

theorem find_after_set (l : List (String × AttrValue)) (n m : String) (v : AttrValue) :
    List.find? (fun p => p.1 == m) (List.filter (fun p => p.1 != n) l ++ [(n, v)]) =
      if m = n then some (n, v) else List.find? (fun p => p.1 == m) l := by
  induction l with
  | nil =>
    by_cases h : m = n
    · simp [h]
    · have h2 : ¬ n = m := fun e => h e.symm
      simp [h, h2]
  | cons a l ih =>
    rw [List.filter_cons]
    by_cases ha : a.1 = n
    · have hb : (a.1 != n) = false := by simp [ha]
      rw [hb]
      simp only [Bool.false_eq_true, if_false]
      rw [ih]
      by_cases h : m = n
      · simp only [h, if_true]
      · have hc : (a.1 == m) = false := by
          rw [ha]
          simpa using fun e : n = m => h e.symm
        simp only [h, if_false, List.find?_cons, hc]
    · have hb : (a.1 != n) = true := by simp [ha]
      rw [hb]
      simp only [if_true, List.cons_append, List.find?_cons]
      by_cases h4 : a.1 = m
      · have hc : (a.1 == m) = true := by simp [h4]
        have h : ¬ m = n := fun e => ha (h4.trans e)
        simp only [hc, h, if_false]
      · have hc : (a.1 == m) = false := by simp [h4]
        simp only [hc]
        exact ih

theorem find_attribute_attribute (s : ImageSpec) (n m : String) (v : AttrValue) :
    (s.attribute n v).find_attribute m = if m = n then some v else s.find_attribute m := by
  unfold ImageSpec.attribute ImageSpec.find_attribute
  simp only [find_after_set]
  split <;> rfl

theorem build_dstspec_wrapmodes (cfg : Config) (env : Env) (t : Int) (src : ImageSpec) :
    (build_dstspec cfg env t src).find_attribute "wrapmodes" =
      if cfg.shadowmode = true then src.find_attribute "wrapmodes"
      else some (AttrValue.str (wrapmodes cfg)) := by
  unfold build_dstspec ImageSpec.find_attribute ImageSpec.attribute ImageSpec.set_format
  by_cases hC : cfg.Mcam = M44f.zero <;> by_cases hS : cfg.Mscr = M44f.zero <;>
    cases hn : cfg.noresize <;> cases hs : cfg.shadowmode <;>
    simp only [hC, hS, ne_eq, find_after_set, if_true, if_false, Bool.not_true, Bool.not_false,
      Bool.and_true, Bool.and_false, Bool.false_eq_true, not_true_eq_false, not_false_eq_true,
      Bool.and_self] <;>
    simp

/-! ## Lemmas on the level loop -/

theorem smallspec_width (img : ImageSpec) (hw : 1 ≤ img.width) :
    (smallspec img).width = max 1 (img.width / 2) := by
  have ht : Int.tdiv img.width 2 = img.width / 2 := Int.tdiv_eq_ediv (by omega) (by decide)
  unfold smallspec
  by_cases h : img.width > 1 <;> by_cases h2 : img.height > 1 <;> simp [h, h2, ht] <;> omega

theorem smallspec_height (img : ImageSpec) (hh : 1 ≤ img.height) :
    (smallspec img).height = max 1 (img.height / 2) := by
  have ht : Int.tdiv img.height 2 = img.height / 2 := Int.tdiv_eq_ediv (by omega) (by decide)
  unfold smallspec
  by_cases h : img.width > 1 <;> by_cases h2 : img.height > 1 <;> simp [h, h2, ht] <;> omega

theorem levels_append (a b : List Event) : levels (a ++ b) = levels a ++ levels b := by
  simp [levels, List.filterMap_append]

theorem log_max_halved (w h : Int) (hw : 1 ≤ w) (hh : 1 ≤ h) (hgt : 1 < w ∨ 1 < h) :
    Nat.log 2 (max w h).toNat =
      Nat.log 2 (max (max 1 (w / 2)) (max 1 (h / 2))).toNat + 1 := by
  have hm : (max (max 1 (w / 2)) (max 1 (h / 2))).toNat = (max w h).toNat / 2 := by omega
  rw [hm]
  have h2 : 2 ≤ (max w h).toNat := by omega
  rw [Nat.log_of_one_lt_of_le (by decide) h2]

theorem mip_loop_levels (env : Env) (name : String) (t : TypeDesc)
    (hopen : ∀ k, env.open_ok k = true) (hwrite : ∀ k, env.write_ok k = true) :
    ∀ (fuel : Nat) (st : LoopState), st.ok = true →
      st.outspec.width = st.img.width → st.outspec.height = st.img.height →
      1 ≤ st.img.width → 1 ≤ st.img.height →
      Nat.log 2 (max st.img.width st.img.height).toNat ≤ fuel →
      ∃ st' l, mip_loop env name t fuel st = some (LoopEnd.finished st') ∧ st'.ok = true ∧
        levels st'.trace = levels st.trace ++ l ∧
        List.Chain (fun a b => HalvesTo a b ∧ StrictlySmaller a b)
          (st.img.width, st.img.height) l ∧
        ((st.img.width, st.img.height) :: l).getLast? = some (1, 1) ∧
        l.length = Nat.log 2 (max st.img.width st.img.height).toNat := by
  intro fuel
  induction fuel with
  | zero =>
    intro st hok hw hh h1 h2 hfuel
    have hlog : Nat.log 2 (max st.img.width st.img.height).toNat = 0 := by omega
    have hlt : (max st.img.width st.img.height).toNat < 2 := by
      rcases Nat.log_eq_zero_iff.1 hlog with h | h
      · exact h
      · omega
    have hw1 : st.img.width = 1 := by omega
    have hh1 : st.img.height = 1 := by omega
    refine ⟨st, [], ?_, hok, by simp, List.Chain.nil, by simp [hw1, hh1], by simp [hlog]⟩
    simp [mip_loop, hw, hh, hw1, hh1]
  | succ n ih =>
    intro st hok hw hh h1 h2 hfuel
    by_cases hc : 1 < st.img.width ∨ 1 < st.img.height
    · have hsw := smallspec_width st.img h1
      have hsh := smallspec_height st.img h2
      have hlog := log_max_halved st.img.width st.img.height h1 h2 hc
      have hcond : (st.ok && (decide (st.outspec.width > 1) || decide (st.outspec.height > 1)))
          = true := by
        simp [hok, hw, hh]; exact hc
      obtain ⟨st', l, hrun, hok', hlev, hchain, hlast, hlen⟩ :=
        ih { img := smallspec st.img, outspec := (smallspec st.img).set_format t,
             ok := st.ok && env.write_ok st.nwrite,
             fs := set_last_write_time st.fs name env.write_time,
             trace := st.trace ++ [Event.open name ((smallspec st.img).set_format t) true]
                ++ [Event.write_image (smallspec st.img).width (smallspec st.img).height],
             nopen := st.nopen + 1, nwrite := st.nwrite + 1 }
          (by simp [hok, hwrite]) (by simp [ImageSpec.set_format]) (by simp [ImageSpec.set_format])
          (by simp only [hsw]; omega) (by simp only [hsh]; omega)
          (by simp only [hsw, hsh]; omega)
      refine ⟨st', (max 1 (st.img.width / 2), max 1 (st.img.height / 2)) :: l, ?_, hok', ?_, ?_,
        ?_, ?_⟩
      · rw [mip_loop, if_pos hcond]
        simp only [hopen, Bool.not_true, Bool.false_eq_true, if_false]
        exact hrun
      · rw [hlev]
        simp [levels_append, levels, hsw, hsh]
      · refine List.Chain.cons ⟨⟨rfl, rfl⟩, ?_⟩ ?_
        · simp only [StrictlySmaller]; omega
        · simpa [hsw, hsh] using hchain
      · simp only [hsw, hsh] at hlast
        rw [List.getLast?_cons_cons]
        exact hlast
      · simp only [hsw, hsh] at hlen
        simp only [List.length_cons, hlen, hlog]
    · have hw1 : st.img.width = 1 := by omega
      have hh1 : st.img.height = 1 := by omega
      refine ⟨st, [], ?_, hok, by simp, List.Chain.nil, by simp [hw1, hh1],
        by simp [hw1, hh1]⟩
      simp [mip_loop, hw, hh, hw1, hh1]

theorem mip_loop_inv (env : Env) (name : String) (t : TypeDesc) :
    ∀ (fuel : Nat) (st : LoopState) (e : LoopEnd),
      mip_loop env name t fuel st = some e →
      (∀ p, p ≠ name → e.fs p = st.fs p) ∧
      (∀ nm spec app, Event.open nm spec app ∈ e.trace →
        Event.open nm spec app ∈ st.trace ∨ (app = true ∧ spec.format = t)) ∧
      (∀ ev, ev ∈ st.trace → ev ∈ e.trace) ∧
      (∀ r, e = LoopEnd.exited r → r.outcome ≠ Outcome.skipped) := by
  intro fuel
  induction fuel with
  | zero =>
    intro st e h
    unfold mip_loop at h
    split at h
    · cases h
    · cases h
      exact ⟨fun _ _ => rfl, fun _ _ _ hm => Or.inl hm, fun _ hm => hm,
        fun r hr => by cases hr⟩
  | succ n ih =>
    intro st e h
    unfold mip_loop at h
    split at h
    · simp only at h
      split at h
      · cases h
        refine ⟨fun _ _ => rfl, ?_, ?_, ?_⟩
        · intro nm spec app hm
          simp only [LoopEnd.trace, List.mem_append, List.mem_singleton] at hm
          rcases hm with hm | hm
          · exact Or.inl hm
          · cases hm
            exact Or.inr ⟨rfl, rfl⟩
        · intro ev hm
          simp only [LoopEnd.trace, List.mem_append, List.mem_singleton]
          exact Or.inl hm
        · intro r hr
          cases hr
          simp
      · obtain ⟨hfs, hop, hmem, hout⟩ := ih _ e h
        refine ⟨?_, ?_, ?_, hout⟩
        · intro p hp
          rw [hfs p hp]
          simp [set_last_write_time, hp]
        · intro nm spec app hm
          rcases hop nm spec app hm with h1 | h1
          · simp only [List.mem_append, List.mem_singleton] at h1
            rcases h1 with (h1 | h1) | h1
            · exact Or.inl h1
            · cases h1
              exact Or.inr ⟨rfl, rfl⟩
            · cases h1
          · exact Or.inr h1
        · intro ev hm
          apply hmem
          simp only [List.mem_append, List.mem_singleton]
          exact Or.inl (Or.inl hm)
    · cases h
      exact ⟨fun _ _ => rfl, fun _ _ _ hm => Or.inl hm, fun _ hm => hm,
        fun r hr => by cases hr⟩

theorem write_mipmap_inv (fuel : Nat) (env : Env) (fs : FileSystem) (img : ImageSpec)
    (name fmt : String) (t : TypeDesc) (mipmap : Bool) (r : Result)
    (h : write_mipmap fuel env fs img name fmt t mipmap = some r) :
    r.outcome ≠ Outcome.skipped ∧
    (∀ p, p ≠ name → r.fs p = fs p) ∧
    (∀ nm spec app, Event.open nm spec app ∈ r.trace →
      spec.format = t ∧ (app = false → spec = img.set_format t)) ∧
    (r.outcome = Outcome.done → Event.open name (img.set_format t) false ∈ r.trace) := by
  have hloop : ∀ (st0 : LoopState) (e : LoopEnd),
      (if mipmap = true then mip_loop env name t fuel st0 else some (LoopEnd.finished st0))
        = some e →
      (∀ p, p ≠ name → e.fs p = st0.fs p) ∧
      (∀ nm spec app, Event.open nm spec app ∈ e.trace →
        Event.open nm spec app ∈ st0.trace ∨ (app = true ∧ spec.format = t)) ∧
      (∀ ev, ev ∈ st0.trace → ev ∈ e.trace) ∧
      (∀ r, e = LoopEnd.exited r → r.outcome ≠ Outcome.skipped) := by
    intro st0 e he
    cases mipmap
    · simp at he
      subst he
      exact ⟨fun _ _ => rfl, fun _ _ _ hm => Or.inl hm, fun _ hm => hm,
        fun r hr => by cases hr⟩
    · exact mip_loop_inv env name t fuel st0 e (by simpa using he)
  have hopen : ∀ (tr : List Event) nm spec app,
      (Event.open nm spec app ∈ [Event.create fmt] ++ [Event.open name (img.set_format t) false]
          ++ [Event.write_image img.width img.height] ∨ (app = true ∧ spec.format = t)) →
      spec.format = t ∧ (app = false → spec = img.set_format t) := by
    intro tr nm spec app h1
    rcases h1 with h1 | h1
    · simp at h1
      obtain ⟨_, h2, h3⟩ := h1
      subst h2 h3
      simp [ImageSpec.set_format]
    · obtain ⟨h2, h3⟩ := h1
      subst h2
      simp [h3]
  unfold write_mipmap at h
  simp only at h
  split at h
  · cases h; simp
  · split at h
    · cases h; simp
    · split at h
      · cases h; simp
      · split at h
        · cases h
          simp [ImageSpec.set_format]
        · split at h
          · cases h
          · next r1 hl =>
            cases h
            obtain ⟨hfs, hop, hmem, hout⟩ := hloop _ _ hl
            simp only [LoopEnd.fs, LoopEnd.trace] at hfs hop hmem
            refine ⟨hout r rfl, ?_, ?_, ?_⟩
            · intro p hp
              rw [hfs p hp]; simp [set_last_write_time, hp]
            · intro nm spec app hm
              exact hopen [] nm spec app (hop nm spec app hm)
            · intro hd
              apply hmem
              simp
          · next st hl =>
            obtain ⟨hfs, hop, hmem, _⟩ := hloop _ _ hl
            simp only [LoopEnd.fs, LoopEnd.trace] at hfs hop hmem
            have hbase : Event.open name (img.set_format t) false ∈ st.trace := by
              apply hmem; simp
            have hfs2 : ∀ p, p ≠ name → st.fs p = fs p := by
              intro p hp
              rw [hfs p hp]; simp [set_last_write_time, hp]
            have hop2 : ∀ nm spec app, Event.open nm spec app ∈ st.trace →
                spec.format = t ∧ (app = false → spec = img.set_format t) :=
              fun nm spec app hm => hopen [] nm spec app (hop nm spec app hm)
            have hop3 : ∀ nm spec app, Event.open nm spec app ∈ st.trace ++ [Event.close] →
                spec.format = t ∧ (app = false → spec = img.set_format t) := by
              intro nm spec app hm
              simp only [List.mem_append, List.mem_singleton] at hm
              rcases hm with hm | hm
              · exact hop2 nm spec app hm
              · cases hm
            cases hok : st.ok <;> cases hc : env.close_ok <;> simp [hok, hc] at h <;> subst h
            all_goals
              refine ⟨by simp, hfs2, ?_, ?_⟩
              · first
                  | exact hop3
                  | exact hop2
              · intro _
                first
                  | exact hbase
                  | simp [hbase]

theorem write_mipmap_levels (fuel : Nat) (env : Env) (fs : FileSystem) (img : ImageSpec)
    (name fmt : String) (t : TypeDesc)
    (hW : 1 ≤ img.width) (hH : 1 ≤ img.height) (hsucc : WriterSucceeds env fmt)
    (hfuel : Nat.log 2 (max img.width img.height).toNat ≤ fuel) :
    ∃ r l, write_mipmap fuel env fs img name fmt t true = some r ∧
      r.outcome = Outcome.done ∧
      levels r.trace = (img.width, img.height) :: l ∧
      List.Chain (fun a b => HalvesTo a b ∧ StrictlySmaller a b) (img.width, img.height) l ∧
      ((img.width, img.height) :: l).getLast? = some (1, 1) ∧
      l.length = Nat.log 2 (max img.width img.height).toNat := by
  obtain ⟨⟨caps, hcreate, htiles, hmulti⟩, hopen, hwrite, hclose⟩ := hsucc
  obtain ⟨st', l, hrun, hok', hlev, hchain, hlast, hlen⟩ :=
    mip_loop_levels env name t hopen hwrite fuel
      { img := img, outspec := img.set_format t, ok := env.write_ok 0,
        fs := set_last_write_time fs name env.write_time,
        trace := [Event.create fmt] ++ [Event.open name (img.set_format t) false]
          ++ [Event.write_image img.width img.height],
        nopen := 1, nwrite := 1 }
      (hwrite 0) rfl rfl hW hH hfuel
  refine ⟨⟨Outcome.done, st'.fs, st'.trace ++ [Event.close]⟩, l, ?_, rfl, ?_, hchain, hlast, hlen⟩
  · unfold write_mipmap
    simp only [hcreate, htiles, hmulti, hopen, Bool.not_true, Bool.false_eq_true, if_false,
      Bool.and_false, if_true, hrun, hok', hclose, Bool.and_self]
  · simp only [levels_append, hlev]
    simp [levels]

/-! ## Lemmas on the storage type -/

theorem out_dataformat_eq_spec (cfg : Config) (src : ImageSpec) :
    out_dataformat cfg src = storage_type_spec src.format cfg.dataformatname cfg.shadowmode := by
  unfold out_dataformat storage_type_spec dataformat_table
  generalize cfg.dataformatname = name
  generalize cfg.shadowmode = shadow
  generalize src.format = t0
  by_cases h1 : name = "uint8"
  · subst h1; cases shadow <;> rfl
  by_cases h2 : name = "sint8"
  · subst h2; cases shadow <;> rfl
  by_cases h3 : name = "int8"
  · subst h3; cases shadow <;> rfl
  by_cases h4 : name = "uint16"
  · subst h4; cases shadow <;> rfl
  by_cases h5 : name = "sint16"
  · subst h5; cases shadow <;> rfl
  by_cases h6 : name = "int16"
  · subst h6; cases shadow <;> rfl
  by_cases h7 : name = "half"
  · subst h7; cases shadow <;> rfl
  by_cases h8 : name = "float"
  · subst h8; cases shadow <;> rfl
  by_cases h9 : name = "double"
  · subst h9; cases shadow <;> rfl
  have hl : List.lookup name
      [("uint8", TypeDesc.UINT8), ("sint8", TypeDesc.INT8), ("int8", TypeDesc.INT8),
       ("uint16", TypeDesc.UINT16), ("sint16", TypeDesc.INT16), ("int16", TypeDesc.INT16),
       ("half", TypeDesc.HALF), ("float", TypeDesc.FLOAT), ("double", TypeDesc.DOUBLE)]
      = none := by
    have b1 : (name == "uint8") = false := by simpa using h1
    have b2 : (name == "sint8") = false := by simpa using h2
    have b3 : (name == "int8") = false := by simpa using h3
    have b4 : (name == "uint16") = false := by simpa using h4
    have b5 : (name == "sint16") = false := by simpa using h5
    have b6 : (name == "int16") = false := by simpa using h6
    have b7 : (name == "half") = false := by simpa using h7
    have b8 : (name == "float") = false := by simpa using h8
    have b9 : (name == "double") = false := by simpa using h9
    simp [List.lookup, b1, b2, b3, b4, b5, b6, b7, b8, b9]
  rw [hl]
  have ht1 : (if (!name.isEmpty) = true then
        if name = "uint8" then TypeDesc.UINT8
        else if (decide (name = "int8") || decide (name = "sint8")) = true then TypeDesc.INT8
        else if name = "uint16" then TypeDesc.UINT16
        else if (decide (name = "int16") || decide (name = "sint16")) = true then TypeDesc.INT16
        else if name = "half" then TypeDesc.HALF
        else if name = "float" then TypeDesc.FLOAT
        else if name = "double" then TypeDesc.DOUBLE
        else t0
      else t0) = t0 := by
    simp [h1, h2, h3, h4, h5, h6, h7, h8, h9]
  simp only [ht1, Option.getD_none]
  cases shadow
  · simp
  · by_cases hF : t0 = TypeDesc.FLOAT <;> by_cases hH : t0 = TypeDesc.HALF <;>
      by_cases hD : t0 = TypeDesc.DOUBLE <;> simp [hF, hH, hD]

theorem make_texturemap_opens (fuel : Nat) (cfg : Config) (env : Env) (fs : FileSystem)
    (input : String) (src : ImageSpec) (r : Result)
    (hf : cfg.filenames = [input]) (hread : env.read input = some src)
    (hrun : make_texturemap fuel cfg env fs = some r) :
    ∀ nm spec app, Event.open nm spec app ∈ r.trace →
      spec.format = out_dataformat cfg src ∧
      (app = false →
        spec = (build_dstspec cfg env (last_write_time fs input) src).set_format
          (out_dataformat cfg src)) := by
  unfold make_texturemap at hrun
  simp only [hf] at hrun
  split at hrun
  · cases hrun; simp
  · split at hrun
    · cases hrun; simp
    · simp only [hread] at hrun
      split at hrun
      · cases hrun; simp
      · split at hrun
        · cases hrun
        · next r0 hw =>
          obtain ⟨_, _, hop, _⟩ := write_mipmap_inv _ _ _ _ _ _ _ _ _ hw
          have htr : r.trace = r0.trace := by
            split at hrun
            · split at hrun <;> cases hrun <;> rfl
            · cases hrun; rfl
          rw [htr]
          exact hop

/-! ## Lemmas on whole runs of `make_texturemap` -/

theorem freshness_gate_skip_iff (updatemode : Bool) (fs : FileSystem) (input output : String)
    (hex : fs_exists fs input = true) :
    freshness_gate updatemode fs input output = Decision.Skip ↔
      updatemode = true ∧ ∃ t, fs output = some t ∧ fs input = some t := by
  unfold freshness_gate last_write_time
  unfold fs_exists at hex ⊢
  cases updatemode <;> cases ho : fs output <;> cases hi : fs input <;> simp [hi] at hex ⊢

theorem freshness_gate_cases (updatemode : Bool) (fs : FileSystem) (input output : String) :
    freshness_gate updatemode fs input output = Decision.Skip ∨
    freshness_gate updatemode fs input output = Decision.Proceed := by
  unfold freshness_gate
  simp only
  split
  · exact Or.inl rfl
  · exact Or.inr rfl

theorem make_texturemap_skip (fuel : Nat) (cfg : Config) (env : Env) (fs : FileSystem)
    (input : String) (hf : cfg.filenames = [input]) (hex : fs_exists fs input = true)
    (hg : freshness_gate cfg.updatemode fs input (resolve_outputfilename cfg env input)
      = Decision.Skip) :
    make_texturemap fuel cfg env fs = some ⟨Outcome.skipped, fs, []⟩ := by
  unfold make_texturemap
  simp [hf, hex, hg]

theorem make_texturemap_proceed (fuel : Nat) (cfg : Config) (env : Env) (fs : FileSystem)
    (input : String) (r : Result) (hf : cfg.filenames = [input])
    (hg : freshness_gate cfg.updatemode fs input (resolve_outputfilename cfg env input)
      = Decision.Proceed)
    (hrun : make_texturemap fuel cfg env fs = some r) :
    r.outcome ≠ Outcome.skipped ∧
    (r.outcome = Outcome.done →
      fs_exists fs input = true ∧
      ∃ r0 : Result, r0.outcome = Outcome.done ∧
        (∀ p, p ≠ resolve_outputfilename cfg env input → r0.fs p = fs p) ∧
        r.trace = r0.trace ∧
        r.fs = if cfg.updatemode = true then
            set_last_write_time r0.fs (resolve_outputfilename cfg env input)
              (last_write_time fs input)
          else r0.fs) := by
  unfold make_texturemap at hrun
  simp only [hf] at hrun
  split at hrun
  · cases hrun; simp
  · next hex =>
    simp only [hg] at hrun
    split at hrun
    · cases hrun; simp
    · split at hrun
      · cases hrun; simp
      · split at hrun
        · cases hrun
        · next r0 hw =>
          obtain ⟨hns, hfs, _, _⟩ := write_mipmap_inv _ _ _ _ _ _ _ _ _ hw
          split at hrun
          · next hd =>
            have hex2 : fs_exists fs input = true := by simpa using hex
            cases hu : cfg.updatemode <;> simp [hu] at hrun <;> subst hrun
            · exact ⟨by simp [hd], fun _ => ⟨hex2, r0, hd, hfs, rfl, by simp⟩⟩
            · exact ⟨by simp [hd], fun _ => ⟨hex2, r0, hd, hfs, rfl, by simp⟩⟩
          · next hnd =>
            cases hrun
            exact ⟨hns, fun h => absurd h (hnd)⟩

theorem make_texturemap_missing (fuel : Nat) (cfg : Config) (env : Env) (fs : FileSystem)
    (input : String) (hf : cfg.filenames = [input]) (hex : fs_exists fs input = false) :
    make_texturemap fuel cfg env fs = some ⟨Outcome.fatal Fatal.input_missing, fs, []⟩ := by
  unfold make_texturemap
  simp [hf, hex]

theorem make_texturemap_shadow_channels (fuel : Nat) (cfg : Config) (env : Env)
    (fs : FileSystem) (input : String) (src : ImageSpec)
    (hf : cfg.filenames = [input]) (hex : fs_exists fs input = true)
    (hg : freshness_gate cfg.updatemode fs input (resolve_outputfilename cfg env input)
      = Decision.Proceed)
    (hread : env.read input = some src) (hs : cfg.shadowmode = true)
    (hch : src.nchannels ≠ 1) :
    make_texturemap fuel cfg env fs = some ⟨Outcome.fatal Fatal.shadow_channels, fs, []⟩ := by
  unfold make_texturemap
  simp [hf, hex, hg, hread, hs, hch]

/-! ## Lemmas on the sample coordinates -/

theorem mem_index_range (n x : Int) : x ∈ index_range n ↔ 0 ≤ x ∧ x < n := by
  unfold index_range
  simp only [List.mem_map, List.mem_range]
  constructor
  · rintro ⟨i, hi, rfl⟩
    omega
  · rintro ⟨h0, hn⟩
    exact ⟨x.toNat, by omega, Int.toNat_of_nonneg h0⟩

theorem ndc_pos (x extent : Int) (hx : 0 ≤ x) (he : 0 < extent) : 0 < ndc x extent := by
  unfold ndc
  have h1 : (0 : Rat) ≤ (x : Rat) := by exact_mod_cast hx
  have h2 : (0 : Rat) < (extent : Rat) := by exact_mod_cast he
  apply div_pos _ h2
  linarith

theorem ndc_lt_one (x extent : Int) (hx : x < extent) (he : 0 < extent) :
    ndc x extent < 1 := by
  unfold ndc
  have h2 : (0 : Rat) < (extent : Rat) := by exact_mod_cast he
  have h3 : (x : Rat) + 1 ≤ (extent : Rat) := by exact_mod_cast hx
  rw [div_lt_iff₀ h2]
  linarith

theorem ndc_lt_half (x extent : Int) (hx : x < extent / 2) (he : 0 < extent) :
    ndc x extent < 1 / 2 := by
  unfold ndc
  have h2 : (0 : Rat) < (extent : Rat) := by exact_mod_cast he
  have h3 : 2 * x + 2 ≤ extent := by omega
  have h4 : 2 * (x : Rat) + 2 ≤ (extent : Rat) := by exact_mod_cast h3
  rw [div_lt_iff₀ h2]
  linarith

theorem ndc_last (extent : Int) (he : 0 < extent) :
    ndc (extent - 1) extent = 1 - 1 / (2 * (extent : Rat)) := by
  unfold ndc
  have h2 : (extent : Rat) ≠ 0 := by
    have : (0 : Rat) < (extent : Rat) := by exact_mod_cast he
    exact ne_of_gt this
  push_cast
  field_simp
  ring

theorem ndc_first (extent : Int) : ndc 0 extent = 1 / (2 * (extent : Rat)) := by
  unfold ndc
  by_cases h2 : (extent : Rat) = 0
  · simp [h2]
  · push_cast
    field_simp

theorem mem_base_sample_coords (dstspec : ImageSpec) (c : Rat × Rat) :
    c ∈ base_sample_coords dstspec ↔
      ∃ y x, (0 ≤ y ∧ y < dstspec.height) ∧ (0 ≤ x ∧ x < dstspec.width) ∧
        c = (ndc x dstspec.width, ndc y dstspec.height) := by
  unfold base_sample_coords
  simp only [List.mem_flatMap, List.mem_map, mem_index_range]
  constructor
  · rintro ⟨y, hy, x, hx, rfl⟩
    exact ⟨y, x, hy, hx, rfl⟩
  · rintro ⟨y, x, hy, hx, rfl⟩
    exact ⟨y, hy, x, hx, rfl⟩

theorem mem_mip_sample_coords (img outspec : ImageSpec) (c : Rat × Rat) :
    c ∈ mip_sample_coords img outspec ↔
      ∃ y x, (0 ≤ y ∧ y < (smallspec img).height) ∧ (0 ≤ x ∧ x < (smallspec img).width) ∧
        c = (ndc x outspec.width, ndc y outspec.height) := by
  unfold mip_sample_coords
  simp only [List.mem_flatMap, List.mem_map, mem_index_range]
  constructor
  · rintro ⟨y, hy, x, hx, rfl⟩
    exact ⟨y, x, hy, hx, rfl⟩
  · rintro ⟨y, x, hy, hx, rfl⟩
    exact ⟨y, hy, x, hx, rfl⟩

/-! ## Properties of the pipeline -/

/-- C1: for a positive source dimension, taken independently for width and
height, the destination dimension set by `make_texturemap` is the smallest
power of two that is at least the source dimension when neither `noresize`
nor `shadowmode` is set, and is the source dimension itself when `noresize`
or `shadowmode` is set. -/
theorem C1_resize_policy (cfg : Config) (env : Env) (in_time : Int) (src : ImageSpec) :
    (cfg.noresize = false ∧ cfg.shadowmode = false →
      (0 < src.width → IsSmallestPow2Ge src.width (build_dstspec cfg env in_time src).width) ∧
      (0 < src.height → IsSmallestPow2Ge src.height (build_dstspec cfg env in_time src).height)) ∧
    (cfg.noresize = true ∨ cfg.shadowmode = true →
      (build_dstspec cfg env in_time src).width = src.width ∧
      (build_dstspec cfg env in_time src).height = src.height) := by
  rw [build_dstspec_width, build_dstspec_height]
  constructor
  · intro h
    simp only [h, and_self, if_true]
    exact ⟨fun _ => pow2roundup_spec _, fun _ => pow2roundup_spec _⟩
  · intro h
    have hn : ¬ (cfg.noresize = false ∧ cfg.shadowmode = false) := by
      rcases h with h | h <;> simp [h]
    simp only [hn, if_false, and_self]

/-- C1 (examples): 300 is rounded up to 512, 256 and 1 are unchanged, and
`--noresize` keeps 300. -/
theorem C1_resize_policy_witness :
    IsSmallestPow2Ge 300 (build_dstspec {} demo_env 0 { width := 300, height := 256 }).width ∧
    (build_dstspec {} demo_env 0 { width := 300, height := 256 }).width = 512 ∧
    (build_dstspec {} demo_env 0 { width := 300, height := 256 }).height = 256 ∧
    (build_dstspec {} demo_env 0 { width := 1, height := 1 }).width = 1 ∧
    (build_dstspec { noresize := true } demo_env 0 { width := 300, height := 256 }).width = 300 :=
  ⟨((C1_resize_policy {} demo_env 0 { width := 300, height := 256 }).1 ⟨rfl, rfl⟩).1 (by decide),
    by decide, by decide, by decide, by decide⟩

/-- C2: for a base level of width and height at least 1, with mipmapping on
and every writer call succeeding, `write_mipmap` returns once the fuel covers
the larger dimension; the levels it writes start at the base, each next level
has width `max 1 (w / 2)` and height `max 1 (h / 2)` of the one before and is
strictly smaller, the last level written is 1 x 1, and the loop is left at once
on a 1 x 1 level whatever the fuel. -/
theorem C2_mip_chain_terminates (fuel : Nat) (env : Env) (fs : FileSystem) (img : ImageSpec)
    (name fmt : String) (t : TypeDesc)
    (hW : 1 ≤ img.width) (hH : 1 ≤ img.height) (hsucc : WriterSucceeds env fmt)
    (hfuel : (max img.width img.height).toNat ≤ fuel) :
    (∃ r l, write_mipmap fuel env fs img name fmt t true = some r ∧
      r.outcome = Outcome.done ∧
      levels r.trace = (img.width, img.height) :: l ∧
      List.Chain (fun a b => HalvesTo a b ∧ StrictlySmaller a b) (img.width, img.height) l ∧
      ((img.width, img.height) :: l).getLast? = some (1, 1)) ∧
    (∀ (fuel1 : Nat) (st : LoopState), st.outspec.width = 1 → st.outspec.height = 1 →
      mip_loop env name t fuel1 st = some (LoopEnd.finished st)) := by
  constructor
  · have hlog : Nat.log 2 (max img.width img.height).toNat ≤ fuel :=
      le_trans (Nat.log_le_self 2 _) hfuel
    obtain ⟨r, l, h1, h2, h3, h4, h5, _⟩ :=
      write_mipmap_levels fuel env fs img name fmt t hW hH hsucc hlog
    exact ⟨r, l, h1, h2, h3, h4, h5⟩
  · intro fuel1 st h1 h2
    cases fuel1 <;> simp [mip_loop, h1, h2]

/-- C2 (example): a 5 x 3 base gives the levels 5 x 3, 2 x 1, 1 x 1, and a
1 x 8 base keeps width 1 while the height halves. -/
theorem C2_mip_chain_terminates_witness :
    (write_mipmap 5 demo_env demo_fs { width := 5, height := 3 } "a.tx" "a.tx"
        TypeDesc.HALF true).map (fun r => levels r.trace) = some [(5, 3), (2, 1), (1, 1)] ∧
    (write_mipmap 8 demo_env demo_fs { width := 1, height := 8 } "a.tx" "a.tx"
        TypeDesc.HALF true).map (fun r => levels r.trace)
      = some [(1, 8), (1, 4), (1, 2), (1, 1)] ∧
    ∃ r l, write_mipmap 5 demo_env demo_fs { width := 5, height := 3 } "a.tx" "a.tx"
        TypeDesc.HALF true = some r ∧
      r.outcome = Outcome.done ∧
      levels r.trace = (5, 3) :: l ∧
      List.Chain (fun a b => HalvesTo a b ∧ StrictlySmaller a b) (5, 3) l ∧
      ((5, 3) :: l).getLast? = some (1, 1) :=
  ⟨by decide, by decide,
    (C2_mip_chain_terminates 5 demo_env demo_fs { width := 5, height := 3 } "a.tx" "a.tx"
      TypeDesc.HALF (by decide) (by decide)
      ⟨⟨⟨true, true⟩, rfl, rfl, rfl⟩, fun _ => rfl, fun _ => rfl, rfl⟩ (by decide)).1⟩

/-- C3: for a base level of width and height at least 1, with mipmapping on
and every writer call succeeding, `write_mipmap` writes exactly
`floor (log2 (max W H)) + 1` levels, the base level included. -/
theorem C3_level_count (fuel : Nat) (env : Env) (fs : FileSystem) (img : ImageSpec)
    (name fmt : String) (t : TypeDesc)
    (hW : 1 ≤ img.width) (hH : 1 ≤ img.height) (hsucc : WriterSucceeds env fmt)
    (hfuel : Nat.log 2 (max img.width img.height).toNat ≤ fuel) :
    ∃ r, write_mipmap fuel env fs img name fmt t true = some r ∧
      r.outcome = Outcome.done ∧
      (levels r.trace).length = Nat.log 2 (max img.width img.height).toNat + 1 := by
  obtain ⟨r, l, h1, h2, h3, _, _, h6⟩ :=
    write_mipmap_levels fuel env fs img name fmt t hW hH hsucc hfuel
  exact ⟨r, h1, h2, by simp [h3, h6]⟩

/-- C3 (example): a 5 x 3 base is written as 3 levels. -/
theorem C3_level_count_witness :
    (write_mipmap 5 demo_env demo_fs { width := 5, height := 3 } "a.tx" "a.tx"
        TypeDesc.HALF true).map (fun r => (levels r.trace).length) = some 3 ∧
    ∃ r, write_mipmap 5 demo_env demo_fs { width := 5, height := 3 } "a.tx" "a.tx"
        TypeDesc.HALF true = some r ∧
      r.outcome = Outcome.done ∧
      (levels r.trace).length = Nat.log 2 (max (5 : Int) 3).toNat + 1 :=
  ⟨by decide,
    C3_level_count 5 demo_env demo_fs { width := 5, height := 3 } "a.tx" "a.tx"
      TypeDesc.HALF (by decide) (by decide)
      ⟨⟨⟨true, true⟩, rfl, rfl, rfl⟩, fun _ => rfl, fun _ => rfl, rfl⟩
      (le_trans (Nat.log_le_self 2 _) (by decide))⟩

/-- C4: the storage type `make_texturemap` computes is the one the
specification words: the table entry of the `-d` name (the source's type for
an empty or unknown name), and under shadow mode that type when it is float,
half or double and float otherwise; every spec handed to the writer's `open`
in a run carries it; `-d half` gives half in every mode and `-d uint8` under
shadow mode gives float. -/
theorem C4_storage_type (cfg : Config) (src : ImageSpec) :
    out_dataformat cfg src = storage_type_spec src.format cfg.dataformatname cfg.shadowmode ∧
    (∀ (fuel : Nat) (env : Env) (fs : FileSystem) (input : String) (r : Result),
      cfg.filenames = [input] → env.read input = some src →
      make_texturemap fuel cfg env fs = some r →
      ∀ nm spec app, Event.open nm spec app ∈ r.trace →
        spec.format = storage_type_spec src.format cfg.dataformatname cfg.shadowmode) ∧
    (cfg.dataformatname = "half" → out_dataformat cfg src = TypeDesc.HALF) ∧
    (cfg.dataformatname = "uint8" → cfg.shadowmode = true →
      out_dataformat cfg src = TypeDesc.FLOAT) := by
  refine ⟨out_dataformat_eq_spec cfg src, ?_, ?_, ?_⟩
  · intro fuel env fs input r hf hread hrun nm spec app hm
    rw [← out_dataformat_eq_spec]
    exact (make_texturemap_opens fuel cfg env fs input src r hf hread hrun nm spec app hm).1
  · intro h
    rw [out_dataformat_eq_spec, h]
    cases cfg.shadowmode <;> rfl
  · intro h hs
    rw [out_dataformat_eq_spec, h, hs]
    rfl

/-- C4 (example): the run `-d half a.tif` opens the writer four times, each
time with a half spec. -/
theorem C4_storage_type_witness :
    (make_texturemap 5 half_cfg demo_env demo_fs).map
        (fun r => r.trace.filterMap (fun e =>
          match e with
          | Event.open _ spec _ => some spec.format
          | _ => none))
      = some [TypeDesc.HALF, TypeDesc.HALF, TypeDesc.HALF, TypeDesc.HALF] ∧
    ∀ r, make_texturemap 5 half_cfg demo_env demo_fs = some r →
      ∀ nm spec app, Event.open nm spec app ∈ r.trace → spec.format = TypeDesc.HALF :=
  ⟨by decide, fun r hr =>
    (C4_storage_type half_cfg { width := 5, height := 3, nchannels := 3 }).2.1
      5 demo_env demo_fs "a.tif" r rfl rfl hr⟩

/-- C5 (counterexample): with `-u --shadow` on a three-channel source whose
output already has the input's modification time, the run is a skip, not a
fatal error. -/
theorem C5_counterexample :
    shadow_update_cfg.shadowmode = true ∧
    (demo_env.read "a.tif").map (fun s => s.nchannels) = some 3 ∧
    (make_texturemap 0 shadow_update_cfg demo_env fresh_fs).map (fun r => r.outcome)
      = some Outcome.skipped := by
  decide

/-- C5 (amended): a run in shadow mode on a source whose channel count is not 1
makes no writer call and leaves the filesystem as it was; it ends in a fatal
error unless the freshness gate skips it, and when the input exists and the
gate decides to proceed the fatal error is the channel-count rejection. -/
theorem C5_shadow_channels_rejected (fuel : Nat) (cfg : Config) (env : Env) (fs : FileSystem)
    (input : String) (src : ImageSpec)
    (hs : cfg.shadowmode = true) (hf : cfg.filenames = [input])
    (hread : env.read input = some src) (hch : src.nchannels ≠ 1) :
    ∃ r, make_texturemap fuel cfg env fs = some r ∧ r.trace = [] ∧ r.fs = fs ∧
      (r.outcome = Outcome.skipped ↔
        fs_exists fs input = true ∧
        freshness_gate cfg.updatemode fs input (resolve_outputfilename cfg env input)
          = Decision.Skip) ∧
      (r.outcome ≠ Outcome.skipped → ∃ e, r.outcome = Outcome.fatal e) ∧
      (fs_exists fs input = true →
        freshness_gate cfg.updatemode fs input (resolve_outputfilename cfg env input)
          = Decision.Proceed →
        r.outcome = Outcome.fatal Fatal.shadow_channels) := by
  cases hex : fs_exists fs input
  · exact ⟨_, make_texturemap_missing fuel cfg env fs input hf hex, rfl, rfl, by simp, by simp,
      by simp⟩
  · rcases freshness_gate_cases cfg.updatemode fs input (resolve_outputfilename cfg env input)
      with hg | hg
    · exact ⟨_, make_texturemap_skip fuel cfg env fs input hf hex hg, rfl, rfl, by simp [hg],
        by simp, by simp [hg]⟩
    · exact ⟨_, make_texturemap_shadow_channels fuel cfg env fs input src hf hex hg hread hs hch,
        rfl, rfl, by simp [hg], by simp, by simp⟩

/-- C5 (example): `--shadow` on a three-channel source with no output yet is
rejected before any writer call. -/
theorem C5_shadow_channels_rejected_witness :
    ∃ r, make_texturemap 0 { filenames := ["a.tif"], shadowmode := true } demo_env demo_fs
        = some r ∧ r.trace = [] ∧ r.fs = demo_fs ∧
      r.outcome = Outcome.fatal Fatal.shadow_channels := by
  obtain ⟨r, h1, h2, h3, _, _, h6⟩ :=
    C5_shadow_channels_rejected 0 { filenames := ["a.tif"], shadowmode := true } demo_env demo_fs
      "a.tif" { width := 5, height := 3, nchannels := 3 } rfl rfl rfl (by decide)
  exact ⟨r, h1, h2, h3, h6 (by decide) (by decide)⟩

/-- C6: for an existing input, the freshness gate decides Skip exactly when
update mode is on and the output exists with a modification time equal to the
input's, and decides Proceed in every other case; a run of `make_texturemap`
is a skip exactly when the gate decides Skip on its output name. -/
theorem C6_freshness_gate (updatemode : Bool) (fs : FileSystem) (input output : String)
    (hex : fs_exists fs input = true) :
    (freshness_gate updatemode fs input output = Decision.Skip ↔
      updatemode = true ∧ ∃ t, fs output = some t ∧ fs input = some t) ∧
    (freshness_gate updatemode fs input output = Decision.Proceed ↔
      ¬ (updatemode = true ∧ ∃ t, fs output = some t ∧ fs input = some t)) ∧
    (∀ (fuel : Nat) (cfg : Config) (env : Env), cfg.filenames = [input] →
      ((make_texturemap fuel cfg env fs).map (fun r => r.outcome) = some Outcome.skipped ↔
        freshness_gate cfg.updatemode fs input (resolve_outputfilename cfg env input)
          = Decision.Skip)) := by
  have hiff := freshness_gate_skip_iff updatemode fs input output hex
  refine ⟨hiff, ?_, ?_⟩
  · rw [← hiff]
    rcases freshness_gate_cases updatemode fs input output with h | h <;> simp [h]
  · intro fuel cfg env hf
    rcases freshness_gate_cases cfg.updatemode fs input (resolve_outputfilename cfg env input)
      with hg | hg
    · simp [make_texturemap_skip fuel cfg env fs input hf hex hg, hg]
    · simp only [hg]
      constructor
      · intro h
        cases hrun : make_texturemap fuel cfg env fs with
        | none => simp [hrun] at h
        | some r =>
          simp only [hrun, Option.map_some', Option.some.injEq] at h
          exact absurd h (make_texturemap_proceed fuel cfg env fs input r hf hg hrun).1
      · intro h
        cases h

/-- C6 (example): equal times skip under `-u`; a newer output, a missing
output and a run without `-u` proceed. -/
theorem C6_freshness_gate_witness :
    freshness_gate true fresh_fs "a.tif" "a.tx" = Decision.Skip ∧
    freshness_gate false fresh_fs "a.tif" "a.tx" = Decision.Proceed ∧
    freshness_gate true demo_fs "a.tif" "a.tx" = Decision.Proceed ∧
    freshness_gate true (set_last_write_time fresh_fs "a.tx" 9) "a.tif" "a.tx"
      = Decision.Proceed ∧
    (freshness_gate true fresh_fs "a.tif" "a.tx" = Decision.Skip ↔
      true = true ∧ ∃ t, fresh_fs "a.tx" = some t ∧ fresh_fs "a.tif" = some t) :=
  ⟨by decide, by decide, by decide, by decide,
    (C6_freshness_gate true fresh_fs "a.tif" "a.tx" (by decide)).1⟩

/-- C7: after a successful run in update mode the output exists and carries the
input's modification time, the input's own time is unchanged, and any second
run in update mode on the resulting filesystem is a skip that makes no writer
call and returns that filesystem as it is. -/
theorem C7_update_idempotent (fuel : Nat) (cfg : Config) (env : Env) (fs : FileSystem)
    (input : String) (hu : cfg.updatemode = true) (hf : cfg.filenames = [input])
    (hdone : (make_texturemap fuel cfg env fs).map (fun r => r.outcome) = some Outcome.done) :
    ∃ r, make_texturemap fuel cfg env fs = some r ∧
      fs_exists fs input = true ∧
      fs_exists r.fs (resolve_outputfilename cfg env input) = true ∧
      r.fs (resolve_outputfilename cfg env input) = fs input ∧
      r.fs input = fs input ∧
      ∀ (fuel2 : Nat) (env2 : Env), env2.extension = env.extension →
        make_texturemap fuel2 cfg env2 r.fs = some ⟨Outcome.skipped, r.fs, []⟩ := by
  cases hrun : make_texturemap fuel cfg env fs with
  | none => simp [hrun] at hdone
  | some r =>
    simp only [hrun, Option.map_some', Option.some.injEq] at hdone
    have hex : fs_exists fs input = true := by
      cases hex : fs_exists fs input
      · rw [make_texturemap_missing fuel cfg env fs input hf hex] at hrun
        cases hrun
        cases hdone
      · rfl
    have hg : freshness_gate cfg.updatemode fs input (resolve_outputfilename cfg env input)
        = Decision.Proceed := by
      rcases freshness_gate_cases cfg.updatemode fs input (resolve_outputfilename cfg env input)
        with hg | hg
      · rw [make_texturemap_skip fuel cfg env fs input hf hex hg] at hrun
        cases hrun
        cases hdone
      · exact hg
    obtain ⟨_, r0, _, hframe, _, hfs⟩ :=
      (make_texturemap_proceed fuel cfg env fs input r hf hg hrun).2 hdone
    simp only [hu, if_true] at hfs
    obtain ⟨t, ht⟩ : ∃ t, fs input = some t := by
      unfold fs_exists at hex
      exact Option.isSome_iff_exists.1 hex
    have hlw : last_write_time fs input = t := by simp [last_write_time, ht]
    have hout : r.fs (resolve_outputfilename cfg env input) = some t := by
      rw [hfs]; simp [set_last_write_time, hlw]
    have hin : r.fs input = some t := by
      rw [hfs]
      by_cases hp : input = resolve_outputfilename cfg env input
      · simp only [set_last_write_time, if_pos hp, hlw]
      · simp only [set_last_write_time, if_neg hp]
        rw [hframe input hp, ht]
    refine ⟨r, rfl, hex, by simp [fs_exists, hout], by rw [hout, ht], by rw [hin, ht], ?_⟩
    intro fuel2 env2 hext
    have hname : resolve_outputfilename cfg env2 input = resolve_outputfilename cfg env input := by
      unfold resolve_outputfilename
      rw [hext]
    have hex2 : fs_exists r.fs input = true := by simp [fs_exists, hin]
    apply make_texturemap_skip fuel2 cfg env2 r.fs input hf hex2
    rw [hname]
    exact (freshness_gate_skip_iff cfg.updatemode r.fs input _ hex2).2 ⟨hu, t, hout, hin⟩

/-- C7 (example): `-u a.tif` on a filesystem without output succeeds and leaves
`a.tx` stamped with the time 5 of `a.tif`; running again is a skip. -/
theorem C7_update_idempotent_witness :
    (make_texturemap 5 update_cfg demo_env demo_fs).map (fun r => r.fs "a.tx") = some (some 5) ∧
    ∃ r, make_texturemap 5 update_cfg demo_env demo_fs = some r ∧
      fs_exists demo_fs "a.tif" = true ∧
      fs_exists r.fs (resolve_outputfilename update_cfg demo_env "a.tif") = true ∧
      r.fs (resolve_outputfilename update_cfg demo_env "a.tif") = demo_fs "a.tif" ∧
      r.fs "a.tif" = demo_fs "a.tif" ∧
      ∀ (fuel2 : Nat) (env2 : Env), env2.extension = demo_env.extension →
        make_texturemap fuel2 update_cfg env2 r.fs = some ⟨Outcome.skipped, r.fs, []⟩ :=
  ⟨by decide, C7_update_idempotent 5 update_cfg demo_env demo_fs "a.tif" rfl rfl (by decide)⟩

/-- C8 (counterexample): with the default options a 300 x 200 source gets
`full_width = 512` and `full_height = 256`, not 0; and `--tile 0 0` gives a
destination spec of tile width and tile height 0. -/
theorem C8_counterexample :
    (build_dstspec {} demo_env 0 photo_src).full_width = 512 ∧
    (build_dstspec {} demo_env 0 photo_src).full_height = 256 ∧
    (build_dstspec { tile0 := 0, tile1 := 0 } demo_env 0 photo_src).tile_width = 0 ∧
    (build_dstspec { tile0 := 0, tile1 := 0 } demo_env 0 photo_src).tile_height = 0 := by
  decide

/-- C8 (amended): the destination spec has the requested tile width and tile
height (so they are non-zero when the requested ones are, as the default 64 is)
and tile depth 1, has `x = y = z = 0` and `full_depth = 0`, and has
`full_width = full_height = 0` when `noresize` or shadow mode is set and
`full_width = width`, `full_height = height` otherwise. -/
theorem C8_dstspec_geometry (cfg : Config) (env : Env) (in_time : Int) (src : ImageSpec) :
    (build_dstspec cfg env in_time src).tile_width = cfg.tile0 ∧
    (build_dstspec cfg env in_time src).tile_height = cfg.tile1 ∧
    (build_dstspec cfg env in_time src).tile_depth = 1 ∧
    (build_dstspec cfg env in_time src).x = 0 ∧
    (build_dstspec cfg env in_time src).y = 0 ∧
    (build_dstspec cfg env in_time src).z = 0 ∧
    (build_dstspec cfg env in_time src).full_depth = 0 ∧
    (cfg.noresize = true ∨ cfg.shadowmode = true →
      (build_dstspec cfg env in_time src).full_width = 0 ∧
      (build_dstspec cfg env in_time src).full_height = 0) ∧
    (cfg.noresize = false ∧ cfg.shadowmode = false →
      (build_dstspec cfg env in_time src).full_width = (build_dstspec cfg env in_time src).width ∧
      (build_dstspec cfg env in_time src).full_height
        = (build_dstspec cfg env in_time src).height) := by
  unfold build_dstspec
  by_cases hC : cfg.Mcam = M44f.zero <;> by_cases hS : cfg.Mscr = M44f.zero <;>
    cases hn : cfg.noresize <;> cases hs : cfg.shadowmode <;>
    simp [hC, hS, ImageSpec.attribute, ImageSpec.set_format, tile2]

/-- C8 (example): with the default options the tiles are 64 x 64 x 1 and a
300 x 200 source gets `full_width = width = 512`; with `--noresize` the
`full_width` stays 0. -/
theorem C8_dstspec_geometry_witness :
    (build_dstspec {} demo_env 0 photo_src).tile_width = 64 ∧
    (build_dstspec {} demo_env 0 photo_src).tile_depth = 1 ∧
    ((build_dstspec {} demo_env 0 photo_src).full_width
        = (build_dstspec {} demo_env 0 photo_src).width ∧
      (build_dstspec {} demo_env 0 photo_src).full_height
        = (build_dstspec {} demo_env 0 photo_src).height) ∧
    ((build_dstspec { noresize := true } demo_env 0 photo_src).full_width = 0 ∧
      (build_dstspec { noresize := true } demo_env 0 photo_src).full_height = 0) :=
  ⟨(C8_dstspec_geometry {} demo_env 0 photo_src).1,
    (C8_dstspec_geometry {} demo_env 0 photo_src).2.2.1,
    (C8_dstspec_geometry {} demo_env 0 photo_src).2.2.2.2.2.2.2.2 ⟨rfl, rfl⟩,
    (C8_dstspec_geometry { noresize := true } demo_env 0 photo_src).2.2.2.2.2.2.2.1
      (Or.inl rfl)⟩

/-- C9 (counterexample): in shadow mode a source that already carries a
`wrapmodes` attribute yields a destination spec that carries it too. -/
theorem C9_counterexample :
    (build_dstspec { shadowmode := true } demo_env 0 wrapped_src).find_attribute "wrapmodes"
      = some (AttrValue.str "periodic,periodic") := by
  decide

/-- C9 (amended): in shadow mode `make_texturemap` sets no `wrapmodes`
attribute: the destination spec has exactly the `wrapmodes` entry of the source
spec, so it has none when the source has none. -/
theorem C9_shadow_wrapmodes (cfg : Config) (env : Env) (in_time : Int) (src : ImageSpec)
    (hs : cfg.shadowmode = true) :
    (build_dstspec cfg env in_time src).find_attribute "wrapmodes"
      = src.find_attribute "wrapmodes" ∧
    (src.find_attribute "wrapmodes" = none →
      (build_dstspec cfg env in_time src).find_attribute "wrapmodes" = none) := by
  have h := build_dstspec_wrapmodes cfg env in_time src
  simp only [hs, if_true] at h
  exact ⟨h, fun hn => by rw [h, hn]⟩

/-- C9 (example): a shadow run on a source without `wrapmodes` gives a
destination spec without it. -/
theorem C9_shadow_wrapmodes_witness :
    (build_dstspec { shadowmode := true } demo_env 0
      { width := 4, height := 4, nchannels := 1 }).find_attribute "wrapmodes" = none :=
  (C9_shadow_wrapmodes { shadowmode := true } demo_env 0
    { width := 4, height := 4, nchannels := 1 } rfl).2 rfl

/-- C10: outside shadow mode the `wrapmodes` attribute of the destination spec
is `S ++ "," ++ T`, where `S` is `swrap` when it is non-empty and `wrap`
otherwise, and `T` is `twrap` when it is non-empty and `wrap` otherwise. -/
theorem C10_wrapmodes (cfg : Config) (env : Env) (in_time : Int) (src : ImageSpec)
    (hs : cfg.shadowmode = false) :
    (build_dstspec cfg env in_time src).find_attribute "wrapmodes" =
      some (AttrValue.str
        ((if cfg.swrap ≠ "" then cfg.swrap else cfg.wrap) ++ "," ++
          (if cfg.twrap ≠ "" then cfg.twrap else cfg.wrap))) := by
  have h := build_dstspec_wrapmodes cfg env in_time src
  simp only [hs, Bool.false_eq_true, if_false] at h
  rw [h]
  have hlen : ∀ s : String, (s.length != 0) = true ↔ s ≠ "" := by
    intro s
    constructor
    · intro hl he
      rw [he] at hl
      exact absurd hl (by decide)
    · intro hne
      rcases s with ⟨l⟩
      cases l with
      | nil => exact absurd rfl hne
      | cons a l => simp [String.length]
  unfold wrapmodes
  simp only [hlen]

/-- C10 (examples): `--wrap clamp` alone gives `clamp,clamp`; `--swrap periodic
--twrap black` gives `periodic,black`; no wrap option gives `black,black`. -/
theorem C10_wrapmodes_witness :
    (build_dstspec { wrap := "clamp" } demo_env 0 photo_src).find_attribute "wrapmodes"
      = some (AttrValue.str "clamp,clamp") ∧
    (build_dstspec { swrap := "periodic", twrap := "black" } demo_env 0
      photo_src).find_attribute "wrapmodes" = some (AttrValue.str "periodic,black") ∧
    (build_dstspec {} demo_env 0 photo_src).find_attribute "wrapmodes"
      = some (AttrValue.str "black,black") :=
  ⟨C10_wrapmodes { wrap := "clamp" } demo_env 0 photo_src rfl,
    C10_wrapmodes { swrap := "periodic", twrap := "black" } demo_env 0 photo_src rfl,
    by decide⟩

/-- C11: in exact rational arithmetic, in a step of the level loop of
`write_mipmap` entered with `outspec` of the dimensions of the image, when the
width is at least 2 the new width is `floor (w / 2)` and every horizontal
sample coordinate `(x + 1/2) / w` used lies strictly between 0 and 1/2, and
likewise vertically when the height is at least 2; whereas the base-level
coordinates of `make_texturemap` all lie strictly between 0 and 1 and, for a
destination of positive size, run from `1 / (2 W)` at the first pixel to
`1 - 1 / (2 W)`, which is at least 1/2, at the last (likewise vertically). -/
theorem C11_mip_samples_first_half (img outspec : ImageSpec)
    (hw : outspec.width = img.width) (hh : outspec.height = img.height) :
    (2 ≤ img.width →
      (smallspec img).width = img.width / 2 ∧
      ∀ c ∈ mip_sample_coords img outspec, 0 < c.1 ∧ c.1 < 1 / 2) ∧
    (2 ≤ img.height →
      (smallspec img).height = img.height / 2 ∧
      ∀ c ∈ mip_sample_coords img outspec, 0 < c.2 ∧ c.2 < 1 / 2) ∧
    (∀ dstspec : ImageSpec,
      (∀ c ∈ base_sample_coords dstspec, (0 < c.1 ∧ c.1 < 1) ∧ (0 < c.2 ∧ c.2 < 1)) ∧
      (1 ≤ dstspec.width → 1 ≤ dstspec.height →
        (1 / (2 * (dstspec.width : Rat)), 1 / (2 * (dstspec.height : Rat)))
          ∈ base_sample_coords dstspec ∧
        (1 - 1 / (2 * (dstspec.width : Rat)), 1 - 1 / (2 * (dstspec.height : Rat)))
          ∈ base_sample_coords dstspec ∧
        1 / 2 ≤ 1 - 1 / (2 * (dstspec.width : Rat)) ∧
        1 / 2 ≤ 1 - 1 / (2 * (dstspec.height : Rat)))) := by
  refine ⟨?_, ?_, ?_⟩
  · intro h2
    have hsw : (smallspec img).width = img.width / 2 := by
      rw [smallspec_width img (by omega)]
      omega
    refine ⟨hsw, ?_⟩
    intro c hc
    obtain ⟨y, x, _, ⟨hx0, hx1⟩, rfl⟩ := (mem_mip_sample_coords img outspec c).1 hc
    rw [hsw] at hx1
    simp only [hw]
    exact ⟨ndc_pos x img.width hx0 (by omega), ndc_lt_half x img.width hx1 (by omega)⟩
  · intro h2
    have hsh : (smallspec img).height = img.height / 2 := by
      rw [smallspec_height img (by omega)]
      omega
    refine ⟨hsh, ?_⟩
    intro c hc
    obtain ⟨y, x, ⟨hy0, hy1⟩, _, rfl⟩ := (mem_mip_sample_coords img outspec c).1 hc
    rw [hsh] at hy1
    simp only [hh]
    exact ⟨ndc_pos y img.height hy0 (by omega), ndc_lt_half y img.height hy1 (by omega)⟩
  · intro dstspec
    constructor
    · intro c hc
      obtain ⟨y, x, ⟨hy0, hy1⟩, ⟨hx0, hx1⟩, rfl⟩ := (mem_base_sample_coords dstspec c).1 hc
      exact ⟨⟨ndc_pos x _ hx0 (by omega), ndc_lt_one x _ hx1 (by omega)⟩,
        ⟨ndc_pos y _ hy0 (by omega), ndc_lt_one y _ hy1 (by omega)⟩⟩
    · intro h1w h1h
      have hW : (1 : Rat) ≤ (dstspec.width : Rat) := by exact_mod_cast h1w
      have hH : (1 : Rat) ≤ (dstspec.height : Rat) := by exact_mod_cast h1h
      refine ⟨?_, ?_, ?_, ?_⟩
      · rw [mem_base_sample_coords]
        exact ⟨0, 0, ⟨le_refl 0, by omega⟩, ⟨le_refl 0, by omega⟩,
          by rw [ndc_first, ndc_first]⟩
      · rw [mem_base_sample_coords]
        exact ⟨dstspec.height - 1, dstspec.width - 1, ⟨by omega, by omega⟩,
          ⟨by omega, by omega⟩,
          by rw [ndc_last _ (by omega), ndc_last _ (by omega)]⟩
      · have : 1 / (2 * (dstspec.width : Rat)) ≤ 1 / 2 := by
          apply div_le_div_of_nonneg_left <;> linarith
        linarith
      · have : 1 / (2 * (dstspec.height : Rat)) ≤ 1 / 2 := by
          apply div_le_div_of_nonneg_left <;> linarith
        linarith

/-- C11 (example): the step from a 5 x 3 level samples the new 2 x 1 level at
the horizontal coordinates 1/10 and 3/10 only, while a 5 x 3 base level is
sampled up to 9/10. -/
theorem C11_mip_samples_first_half_witness :
    (mip_sample_coords { width := 5, height := 3 } { width := 5, height := 3 }).map
        (fun c => c.1) = [1 / 10, 3 / 10] ∧
    ((base_sample_coords { width := 5, height := 3 }).map (fun c => c.1)).take 5
      = [1 / 10, 3 / 10, 1 / 2, 7 / 10, 9 / 10] ∧
    ∀ c ∈ mip_sample_coords { width := 5, height := 3 } { width := 5, height := 3 },
      0 < c.1 ∧ c.1 < 1 / 2 := by
  refine ⟨?_, ?_, ?_⟩
  · have h : smallspec { width := 5, height := 3 } =
        { width := 2, height := 1, full_width := 2, full_height := 1, full_depth := 1 } := by
      decide
    unfold mip_sample_coords
    rw [h]
    simp [index_range, ndc, List.range_succ]
    norm_num
  · simp [base_sample_coords, index_range, ndc, List.range_succ]
    norm_num
  · exact ((C11_mip_samples_first_half { width := 5, height := 3 } { width := 5, height := 3 }
      rfl rfl).1 (by decide)).2

end Maketx
